import Mathlib

/-!
Verification development for the PCT-MCS membership backend
(`pct.py` / `db.py`): a shallow embedding of the registration,
authorization, verification, card-generation and reporting logic,
together with theorems settling the specification claims.

Modelling conventions:
* Python `datetime.date` values are triples `(year, month, day)`; Python
  compares dates lexicographically, which for valid dates agrees with
  comparing the numeric key `year*10000 + month*100 + day`.
* `status` ranges over the documented enumeration
  {Active, Expired, Suspended} (`db.py` line 42).
* The record store is a list of rows; `filter_by(...).first()` is
  `List.find?`.  The blob store is the list of stored filenames.
* Python dicts are modelled extensionally as functions
  `String → Option _` (insertion order of keys is not observable here).
* `session.commit()` may raise (operational or integrity failure); this
  environment event is an explicit `commitOk : Bool` argument, and the
  `except ... session.rollback()` handlers are the corresponding branch.
* The PDF rendering engine is an external collaborator: the generated
  document is modelled as the field set drawn into it.
-/

namespace PCT

/-- Calendar date `(year, month, day)`, mirroring Python `datetime.date`. -/
structure SDate where
  year : Nat
  month : Nat
  day : Nat
deriving DecidableEq

/-- Numeric comparison key for dates; for real dates (month ≤ 12, day ≤ 31)
ordering the keys agrees with Python's lexicographic date order. -/
def SDate.key (d : SDate) : Nat := d.year * 10000 + d.month * 100 + d.day

/-- Member status, the documented enumeration of `CampaignMember.status`
(`db.py` line 42: Active, Expired, Suspended). -/
inductive Status
  | Active
  | Expired
  | Suspended
deriving DecidableEq

/-- The string stored in the `status` column / used as a dict key for a status. -/
def statusKey : Status → String
  | .Active => "Active"
  | .Expired => "Expired"
  | .Suspended => "Suspended"

/-- Row of the `campaign_members` table (`db.py` lines 25-48). -/
structure CampaignMember where
  user_id : String
  name : String
  nrc : String
  province : String
  town : String
  zone : String
  membership_start : SDate
  membership_end : SDate
  status : Status
  photo_filename : String
  last_modified : SDate
deriving DecidableEq

/-- Row of the `admin_users` table (`db.py` lines 54-66). -/
structure AdminUser where
  username : String
  password_hash : String
  role : String
deriving DecidableEq

/-- An uploaded file part (`request.files.get('id_photo')`); only the
filename is inspected by the registration logic. -/
structure PhotoFile where
  filename : String
deriving DecidableEq

/-- The multipart form of `POST /members/register` (`pct.py` lines 131-153).
Absent form fields are `none`; `membership_end_date` is carried as an
already-parsed date (the `date.fromisoformat` of the submitted string). -/
structure RegisterRequest where
  nrc : Option String
  name : Option String
  province : Option String
  town : Option String
  zone : Option String
  membership_end_date : Option SDate
  id_photo : Option PhotoFile
deriving DecidableEq

/-- Persistent state touched by registration: the member table and the
blob store of saved photo files (`UPLOAD_DIR`). -/
structure DBState where
  members : List CampaignMember
  blobs : List String
deriving DecidableEq

/-! ### Decimal rendering of naturals (Python `str(int)` inside f-strings) -/

/-- The decimal digit character for `n < 10`. -/
def decDigitChar (n : Nat) : Char := Char.ofNat (48 + n)

/-- Fuel-indexed decimal digit list; `fuel > n` suffices. -/
def decDigitsAux : Nat → Nat → List Char
  | 0, _ => []
  | fuel + 1, n =>
    if n < 10 then [decDigitChar n]
    else decDigitsAux fuel (n / 10) ++ [decDigitChar (n % 10)]

/-- Decimal rendering of a natural number, mirroring Python `str`. -/
def natToString (n : Nat) : String := String.mk (decDigitsAux (n + 1) n)

/-! ### `allowed_file` (`pct.py` lines 36-39) -/

/-- `ALLOWED_EXTENSIONS = {'png', 'jpg', 'jpeg'}` (`pct.py` line 34). -/
def ALLOWED_EXTENSIONS : List String := ["png", "jpg", "jpeg"]

/-- Characters after the last `'.'`, or `none` when no dot occurs:
the combination of Python's `'.' in filename` test and
`filename.rsplit('.', 1)[1]`. -/
def lastExtAux : List Char → Option (List Char) → Option (List Char)
  | [], acc => acc
  | c :: rest, acc =>
    if c = '.' then lastExtAux rest (some [])
    else lastExtAux rest (acc.map (fun e => e ++ [c]))

/-- `allowed_file` (`pct.py` lines 36-39): the filename contains a dot and
its lowercased extension is one of the allowed ones. -/
def allowed_file (filename : String) : Bool :=
  match lastExtAux filename.data none with
  | none => false
  | some ext => ALLOWED_EXTENSIONS.contains (String.mk (ext.map Char.toLower))

/-! ### Identity allocation (`pct.py` line 146) -/

/-- The characters that `uuid.uuid4().hex` can produce. -/
def hexDigitChars : List Char := "0123456789abcdef".data

/-- `f"PCT-{date.today().year}-{uuid.uuid4().hex[:6].upper()}"`
(`pct.py` line 146); `uuidHex` is the hex string of the drawn uuid4. -/
def allocate_member_id (year : Nat) (uuidHex : List Char) : String :=
  "PCT-" ++ natToString year ++ "-" ++ String.mk ((uuidHex.take 6).map Char.toUpper)

/-! ### `werkzeug.utils.secure_filename` (used at `pct.py` line 147) -/

/-- Separators that `secure_filename` turns into word breaks: whitespace
(Python `str.split()`) and the path separators it replaces by spaces first. -/
def sfSep (c : Char) : Bool := c.isWhitespace || c == '/' || c == '\\'

/-- Characters kept by `secure_filename`'s ASCII strip (regex `[^A-Za-z0-9_.-]`). -/
def sfKeep (c : Char) : Bool := c.isAlphanum || c == '_' || c == '.' || c == '-'

/-- Characters stripped from both ends (`.strip("._")`). -/
def sfStripChar (c : Char) : Bool := c == '.' || c == '_'

/-- Word splitting on `sfSep`, dropping empty words (Python `str.split()`). -/
def sfWordsAux : List Char → List Char → List (List Char)
  | [], cur => if cur = [] then [] else [cur.reverse]
  | c :: rest, cur =>
    if sfSep c then
      if cur = [] then sfWordsAux rest []
      else cur.reverse :: sfWordsAux rest []
    else sfWordsAux rest (c :: cur)

/-- Model of `werkzeug.utils.secure_filename` restricted to ASCII input:
path separators count as word breaks, words are joined with `'_'`,
characters outside `[A-Za-z0-9_.-]` are dropped, and leading/trailing
`'.'`/`'_'` are stripped. -/
def secure_filename (s : String) : String :=
  let joined := (List.intercalate ['_'] (sfWordsAux s.data [])).filter sfKeep
  String.mk (((joined.dropWhile sfStripChar).reverse.dropWhile sfStripChar).reverse)

/-! ### Registration (`pct.py` lines 125-186) -/

/-- Error outcomes of `register_member`, by HTTP status:
missing data 400, duplicate NRC 409, bad file type 400,
failure at commit 500 (transaction rolled back). -/
inductive RegisterError
  | validationMissing
  | conflict
  | validationFileType
  | storeError
deriving DecidableEq

/-- Python truthiness of `photo_file`: absent part, or a part whose
filename is empty, is falsy (`FileStorage.__bool__`). -/
def photoMissing (req : RegisterRequest) : Bool :=
  match req.id_photo with
  | none => true
  | some p => p.filename == ""

/-- `register_member` (`pct.py` lines 127-186).  `uuidHex` is the hex of
the uuid4 drawn at line 146; `commitOk` records whether `session.commit()`
succeeds (line 169) — on failure the `except` handlers roll the
transaction back (lines 176-184), so the member table reverts while the
photo already written at line 150 stays in the blob store. -/
def register_member (st : DBState) (req : RegisterRequest) (today : SDate)
    (uuidHex : List Char) (commitOk : Bool) :
    Except RegisterError String × DBState :=
  let nrc := req.nrc.getD ""
  if nrc == "" || photoMissing req then (.error .validationMissing, st)
  else
    match req.id_photo with
    | none => (.error .validationMissing, st)
    | some photo =>
      if (st.members.find? (fun m => m.nrc == nrc)).isSome then
        (.error .conflict, st)
      else if allowed_file photo.filename = false then
        (.error .validationFileType, st)
      else
        let unique_id := allocate_member_id today.year uuidHex
        let filename := secure_filename (unique_id ++ "_photo.jpg")
        let st1 : DBState := { st with blobs := st.blobs ++ [filename] }
        let end_date := (req.membership_end_date).getD ⟨2028, 12, 31⟩
        let newMember : CampaignMember :=
          { user_id := unique_id
            name := req.name.getD "N/A"
            nrc := nrc
            province := req.province.getD "Unknown"
            town := req.town.getD "N/A"
            zone := req.zone.getD "N/A"
            membership_start := today
            membership_end := end_date
            status := .Active
            photo_filename := filename
            last_modified := today }
        if commitOk then (.ok unique_id, { st1 with members := st1.members ++ [newMember] })
        else (.error .storeError, st1)

/-! ### Access control gate (`pct.py` lines 42-65) -/

/-- Error outcomes of the role gate: missing/malformed header 401,
unknown credential 401, insufficient role 403. -/
inductive AuthError
  | missingToken
  | authenticationError
  | authorizationError (r : String)
deriving DecidableEq

/-- `role_required` (`pct.py` lines 42-65): `token` is the bearer token
extracted from the `Authorization` header (`none` when the header is
missing or not of `Bearer` shape); the token is looked up as an
`AdminUser.username` and the user's role checked against the gate's set. -/
def authorize (users : List AdminUser) (token : Option String)
    (requiredRoles : List String) : Except AuthError AdminUser :=
  match token with
  | none => .error .missingToken
  | some t =>
    match users.find? (fun u => u.username == t) with
    | none => .error .authenticationError
    | some u =>
      if requiredRoles.contains u.role then .ok u
      else .error (.authorizationError u.role)

/-- Role set of `POST /members/register` (`pct.py` line 126). -/
def registerRoles : List String := ["SuperAdmin", "ProvincialAdmin", "DataEntry"]

/-- Role set of `GET /admin/members/search` (`pct.py` line 190). -/
def searchRoles : List String := ["SuperAdmin", "ProvincialAdmin", "DataEntry"]

/-- Role set of `GET /admin/reports/region` (`pct.py` line 244). -/
def regionReportRoles : List String := ["SuperAdmin", "ProvincialAdmin"]

/-! ### Verification endpoint (`pct.py` lines 474-504) -/

/-- The only domain error of `/verify/<user_id>`: unknown id, 404. -/
inductive VerifyError
  | notFound
deriving DecidableEq

/-- The JSON payload of `/verify/<user_id>` (`pct.py` lines 487-493). -/
structure VerificationPayload where
  user_id : String
  name : String
  status : Status
  valid_until : SDate
  result : String
deriving DecidableEq

/-- `verify_member` (`pct.py` lines 475-493): fetch by `user_id`,
404 when absent, otherwise `AUTHENTICATED` exactly when the status is
Active and the membership end date is on or after today. -/
def verify_member (members : List CampaignMember) (uid : String) (today : SDate) :
    Except VerifyError VerificationPayload :=
  match members.find? (fun m => m.user_id == uid) with
  | none => .error .notFound
  | some member =>
    .ok { user_id := member.user_id
          name := member.name
          status := member.status
          valid_until := member.membership_end
          result :=
            if member.status = Status.Active ∧ today.key ≤ member.membership_end.key
            then "AUTHENTICATED" else "EXPIRED/INACTIVE" }

/-! ### Card generation (`pct.py` lines 287-471) -/

/-- Error outcomes of `/members/<user_id>/card`: unknown id 404,
non-active member 403. -/
inductive CardError
  | notFound
  | statusError (s : Status)
deriving DecidableEq

/-- Two-digit zero-padded rendering (`strftime` date components). -/
def pad2 (n : Nat) : String := if n < 10 then "0" ++ natToString n else natToString n

/-- `strftime('%Y-%m-%d')` of a date. -/
def isoDate (d : SDate) : String :=
  natToString d.year ++ "-" ++ pad2 d.month ++ "-" ++ pad2 d.day

/-- The field set drawn into the PDF card; the rendering engine is an
external collaborator, so the produced document is modelled as these
fields (including the QR string built at `pct.py` line 434). -/
structure CardDocument where
  user_id : String
  name : String
  nrc : String
  province : String
  town : String
  zone : String
  valid_until : SDate
  qr_data : String
deriving DecidableEq

/-- `generate_member_card` (`pct.py` lines 288-460): fetch by `user_id`,
404 when absent, 403 without any document when the status is not Active,
otherwise the rendered card. -/
def generate_member_card (members : List CampaignMember) (uid : String) :
    Except CardError CardDocument :=
  match members.find? (fun m => m.user_id == uid) with
  | none => .error .notFound
  | some member =>
    if member.status = Status.Active then
      .ok { user_id := member.user_id
            name := member.name
            nrc := member.nrc
            province := member.province
            town := member.town
            zone := member.zone
            valid_until := member.membership_end
            qr_data := "PCT-VERIFY:" ++ member.user_id ++ "|STATUS:" ++
              statusKey member.status ++ "|EXPIRY:" ++ isoDate member.membership_end }
    else .error (.statusError member.status)

/-! ### Region report (`pct.py` lines 245-273) -/

/-- Inner dict of the report: status key (or `"Total"`) to count. -/
abbrev StatusDict := String → Option Nat

/-- Outer dict of the report: province to inner dict. -/
abbrev RegionDict := String → Option StatusDict

/-- Number of members of a given province and status — the SQL
`COUNT(id) GROUP BY province, status` value of that group. -/
def countPS (members : List CampaignMember) (p : String) (s : Status) : Nat :=
  (members.filter (fun m => m.province == p && m.status == s)).length

/-- The distinct `(province, status)` pairs occurring in the table —
the groups of the SQL query. -/
def pairsOf (members : List CampaignMember) : List (String × Status) :=
  (members.map (fun m => (m.province, m.status))).dedup

/-- The grouped query result: one `(province, status, count)` row per
group.  (The SQL `ORDER BY` affects only dict key order, which the
extensional dict model does not observe.) -/
def report_data (members : List CampaignMember) : List (String × Status × Nat) :=
  (pairsOf members).map (fun q => (q.1, q.2, countPS members q.1 q.2))

/-- `results[province] = {'Total': 0}` (`pct.py` line 264). -/
def freshDict : StatusDict := fun k => if k = "Total" then some 0 else none

/-- One iteration of the loop at `pct.py` lines 262-267:
`results[province][status] = count; results[province]['Total'] += count`. -/
def stepRow (acc : RegionDict) (p : String) (s : Status) (c : Nat) : RegionDict :=
  let cur : StatusDict := (acc p).getD freshDict
  let tot : Nat := (cur "Total").getD 0
  let cur1 : StatusDict := fun k =>
    if k = statusKey s then some c
    else if k = "Total" then some (tot + c)
    else cur k
  fun q => if q = p then some cur1 else acc q

/-- The reshaping loop over the grouped rows (`pct.py` lines 261-267). -/
def region_fold : List (String × Status × Nat) → RegionDict → RegionDict
  | [], acc => acc
  | (p, s, c) :: rest, acc => region_fold rest (stepRow acc p s c)

/-- `region_report` (`pct.py` lines 245-273): the nested
province → status → count mapping with per-province `"Total"`. -/
def region_report (members : List CampaignMember) : RegionDict :=
  region_fold (report_data members) (fun _ => none)

/-- The member record built at `pct.py` lines 155-167 for a valid request. -/
def registeredMember (req : RegisterRequest) (today : SDate) (uuidHex : List Char)
    (n : String) : CampaignMember :=
  { user_id := allocate_member_id today.year uuidHex,
    name := req.name.getD "N/A",
    nrc := n,
    province := req.province.getD "Unknown",
    town := req.town.getD "N/A",
    zone := req.zone.getD "N/A",
    membership_start := today,
    membership_end := (req.membership_end_date).getD ⟨2028, 12, 31⟩,
    status := .Active,
    photo_filename := secure_filename (allocate_member_id today.year uuidHex ++ "_photo.jpg"),
    last_modified := today }

/-- Sum of the counts of the grouped rows whose province is `p`. -/
def sumAt (rows : List (String × Status × Nat)) (p : String) : Nat :=
  ((rows.filter (fun r => r.1 == p)).map (fun r => r.2.2)).sum

/-! ### Sample data used by the concrete instantiations below -/

/-- An Active member of Lusaka province. -/
def demoMember : CampaignMember :=
  { user_id := "PCT-2025-AB12CD", name := "Jane Phiri", nrc := "101234/18/1",
    province := "Lusaka", town := "Lusaka", zone := "Zone 4",
    membership_start := ⟨2025, 1, 1⟩, membership_end := ⟨2028, 12, 31⟩,
    status := .Active, photo_filename := "PCT-2025-AB12CD_photo.jpg",
    last_modified := ⟨2025, 1, 1⟩ }

/-- A second Active member of Lusaka province. -/
def demoMember2 : CampaignMember :=
  { user_id := "PCT-2025-QR77ZK", name := "Peter Zulu", nrc := "303030/30/3",
    province := "Lusaka", town := "Kafue", zone := "Zone 2",
    membership_start := ⟨2025, 2, 1⟩, membership_end := ⟨2028, 12, 31⟩,
    status := .Active, photo_filename := "PCT-2025-QR77ZK_photo.jpg",
    last_modified := ⟨2025, 2, 1⟩ }

/-- A Suspended member of Copperbelt province. -/
def demoSuspended : CampaignMember :=
  { user_id := "PCT-2025-EF34GH", name := "Mary Banda", nrc := "555555/55/5",
    province := "Copperbelt", town := "Ndola", zone := "Zone 1",
    membership_start := ⟨2025, 1, 1⟩, membership_end := ⟨2026, 1, 1⟩,
    status := .Suspended, photo_filename := "PCT-2025-EF34GH_photo.jpg",
    last_modified := ⟨2025, 6, 1⟩ }

/-- The member table used by the report instantiation. -/
def demoMembers : List CampaignMember := [demoMember, demoMember2, demoSuspended]

/-- A SuperAdmin account. -/
def demoAdmin : AdminUser := ⟨"superadmin", "pbkdf2-hash-1", "SuperAdmin"⟩

/-- A DataEntry account. -/
def demoClerk : AdminUser := ⟨"clerk", "pbkdf2-hash-2", "DataEntry"⟩

/-- A registration form whose NRC duplicates `demoMember` and whose photo
has a disallowed extension. -/
def reqBadExtDup : RegisterRequest :=
  { nrc := some "101234/18/1", name := some "John Mwansa", province := none,
    town := none, zone := none, membership_end_date := none,
    id_photo := some ⟨"evil.txt"⟩ }

/-- A registration form whose NRC duplicates `demoMember`, with a valid photo. -/
def demoReqDup : RegisterRequest :=
  { nrc := some "101234/18/1", name := some "John Mwansa", province := some "Lusaka",
    town := some "Chilenje", zone := some "Zone 9", membership_end_date := none,
    id_photo := some ⟨"john.jpg"⟩ }

/-- A fresh registration form uploading a `.png` photo. -/
def demoReqPng : RegisterRequest :=
  { nrc := some "222222/22/2", name := some "Amy Tembo", province := some "Copperbelt",
    town := some "Ndola", zone := some "Zone 3", membership_end_date := some ⟨2027, 6, 30⟩,
    id_photo := some ⟨"me.png"⟩ }

/-- A uuid4 hex draw (version nibble 4, variant nibble 8). -/
def demoHex : List Char := "aaaaaa00000040008000000000000000".data

/-- Another uuid4 hex draw agreeing with `demoHex` on the first six characters. -/
def demoHexB : List Char := "aaaaaa00000040008111111111111111".data

end PCT

namespace PCT

/-- Claim C2: `verify` returns NotFoundError when no member has the
requested id; otherwise the payload result is AUTHENTICATED exactly when
the member status is Active and its membership end date is on or after
today, and EXPIRED/INACTIVE otherwise. -/
theorem verify_member_correct (members : List CampaignMember) (uid : String) (today : SDate) :
    (members.find? (fun m => m.user_id == uid) = none →
      verify_member members uid today = .error .notFound)
  ∧ (∀ m, members.find? (fun m => m.user_id == uid) = some m →
      ∃ p, verify_member members uid today = .ok p ∧
        (p.result = "AUTHENTICATED" ↔ (m.status = .Active ∧ today.key ≤ m.membership_end.key)) ∧
        (¬ (m.status = .Active ∧ today.key ≤ m.membership_end.key) →
          p.result = "EXPIRED/INACTIVE")) := by
  constructor
  · intro h; simp [verify_member, h]
  · intro m hm
    refine ⟨⟨m.user_id, m.name, m.status, m.membership_end,
      if m.status = Status.Active ∧ today.key ≤ m.membership_end.key
      then "AUTHENTICATED" else "EXPIRED/INACTIVE"⟩, by simp [verify_member, hm], ?_, ?_⟩
    · by_cases hc : m.status = Status.Active ∧ today.key ≤ m.membership_end.key <;>
        simp [hc]
    · intro hc; simp [hc]

/-- Claim C4: the card operation returns NotFoundError for an unknown id,
StatusError (403) without producing any document for a member whose status
is not Active, and produces a document exactly for Active members. -/
theorem generate_member_card_correct (members : List CampaignMember) (uid : String) :
    (members.find? (fun m => m.user_id == uid) = none →
      generate_member_card members uid = .error .notFound)
  ∧ (∀ m, members.find? (fun m => m.user_id == uid) = some m → m.status ≠ .Active →
      generate_member_card members uid = .error (.statusError m.status))
  ∧ ((∃ doc, generate_member_card members uid = .ok doc) ↔
      ∃ m, members.find? (fun m => m.user_id == uid) = some m ∧ m.status = .Active) := by
  refine ⟨?_, ?_, ?_⟩
  · intro h; simp [generate_member_card, h]
  · intro m hm hs; simp [generate_member_card, hm, hs]
  · constructor
    · rintro ⟨doc, hdoc⟩
      cases hfind : members.find? (fun m => m.user_id == uid) with
      | none => simp [generate_member_card, hfind] at hdoc
      | some m =>
        by_cases hs : m.status = Status.Active
        · exact ⟨m, rfl, hs⟩
        · simp [generate_member_card, hfind, hs] at hdoc
    · rintro ⟨m, hm, hs⟩
      exact ⟨⟨m.user_id, m.name, m.nrc, m.province, m.town, m.zone, m.membership_end,
        "PCT-VERIFY:" ++ m.user_id ++ "|STATUS:" ++ statusKey m.status ++ "|EXPIRY:" ++
          isoDate m.membership_end⟩, by simp [generate_member_card, hm, hs]⟩

/-- Claim C3: the access-control gate authenticates the bearer credential
against the AdminUser table (AuthenticationError when no user matches),
succeeds exactly when the matched role is in the gated operation's allowed
set and yields AuthorizationError otherwise; search allows
{SuperAdmin, ProvincialAdmin, DataEntry} and the region report only
{SuperAdmin, ProvincialAdmin}. -/
theorem authorize_role_gate (users : List AdminUser) (t : String) (req : List String) :
    (users.find? (fun u => u.username == t) = none →
      authorize users (some t) req = .error .authenticationError)
  ∧ (∀ u, users.find? (fun u => u.username == t) = some u →
      ((∃ v, authorize users (some t) req = .ok v) ↔ u.role ∈ req)
      ∧ (u.role ∉ req → authorize users (some t) req = .error (.authorizationError u.role))
      ∧ (u.role ∈ req → authorize users (some t) req = .ok u))
  ∧ searchRoles = ["SuperAdmin", "ProvincialAdmin", "DataEntry"]
  ∧ regionReportRoles = ["SuperAdmin", "ProvincialAdmin"] := by
  refine ⟨?_, ?_, rfl, rfl⟩
  · intro h; simp [authorize, h]
  · intro u hu
    by_cases hr : u.role ∈ req
    · exact ⟨⟨fun _ => hr, fun _ => ⟨u, by simp [authorize, hu, hr]⟩⟩,
        fun h => absurd hr h, fun _ => by simp [authorize, hu, hr]⟩
    · refine ⟨⟨?_, fun h => absurd h hr⟩, fun _ => by simp [authorize, hu, hr],
        fun h => absurd h hr⟩
      rintro ⟨v, hv⟩
      simp [authorize, hu, hr] at hv



/-- Helper: on a valid, non-duplicate request the registration reaches the
write phase; outcome and final state for both commit outcomes. -/
theorem register_success_shape (st : DBState) (req : RegisterRequest) (today : SDate)
    (uuidHex : List Char) (commitOk : Bool) (n : String) (photo : PhotoFile)
    (hn : req.nrc = some n) (hne : n ≠ "")
    (hp : req.id_photo = some photo) (hpf : photo.filename ≠ "")
    (hnodup : st.members.find? (fun m => m.nrc == n) = none)
    (hext : allowed_file photo.filename = true) :
    register_member st req today uuidHex commitOk =
      (if commitOk then
        (Except.ok (allocate_member_id today.year uuidHex),
         ⟨st.members ++ [registeredMember req today uuidHex n],
          st.blobs ++ [secure_filename (allocate_member_id today.year uuidHex ++ "_photo.jpg")]⟩)
      else
        (Except.error RegisterError.storeError,
         ⟨st.members,
          st.blobs ++ [secure_filename (allocate_member_id today.year uuidHex ++ "_photo.jpg")]⟩)) := by
  have hne' : (n == "") = false := by simpa using hne
  have hpf' : (photo.filename == "") = false := by simpa using hpf
  cases commitOk <;>
    simp [register_member, registeredMember, hn, hp, photoMissing, hne', hpf', hnodup, hext]

/-- Helper: duplicate NRC yields the 409 with no state change. -/
theorem register_conflict_of_dup (st : DBState) (req : RegisterRequest) (today : SDate)
    (uuidHex : List Char) (commitOk : Bool) (n : String)
    (hn : req.nrc = some n) (hne : n ≠ "")
    (hphoto : photoMissing req = false)
    (hdup : ∃ m ∈ st.members, m.nrc = n) :
    register_member st req today uuidHex commitOk = (.error .conflict, st) := by
  obtain ⟨m, hm, hmn⟩ := hdup
  have hne' : (n == "") = false := by simpa using hne
  have hfind : (st.members.find? (fun m => m.nrc == n)).isSome = true := by
    rw [List.find?_isSome]
    exact ⟨m, hm, by simp [hmn]⟩
  cases hp : req.id_photo with
  | none => simp [photoMissing, hp] at hphoto
  | some photo =>
    simp [register_member, hn, hp, hne', hphoto, hfind]

/-- Claim C5 (amended): register checks the missing national_id/photo
validation before the duplicate lookup, but the photo-extension check runs
only after it: a request with a disallowed extension yields ValidationError
exactly when its national_id does not duplicate an existing member, and
ConflictError when it does. -/
theorem register_extension_checked_after_duplicate (st : DBState) (req : RegisterRequest)
    (today : SDate) (uuidHex : List Char) (commitOk : Bool) (n : String) (photo : PhotoFile)
    (hn : req.nrc = some n) (hne : n ≠ "")
    (hp : req.id_photo = some photo) (hpf : photo.filename ≠ "")
    (hext : allowed_file photo.filename = false) :
    ((∃ m ∈ st.members, m.nrc = n) →
      register_member st req today uuidHex commitOk = (.error .conflict, st))
  ∧ ((∀ m ∈ st.members, m.nrc ≠ n) →
      register_member st req today uuidHex commitOk = (.error .validationFileType, st)) := by
  constructor
  · intro hdup
    exact register_conflict_of_dup st req today uuidHex commitOk n hn hne
      (by simp [photoMissing, hp, hpf]) hdup
  · intro hnd
    have hne' : (n == "") = false := by simpa using hne
    have hpf' : (photo.filename == "") = false := by simpa using hpf
    have hnodup : st.members.find? (fun m => m.nrc == n) = none := by
      rw [List.find?_eq_none]
      intro m hm
      simpa using hnd m hm
    simp [register_member, hn, hp, photoMissing, hne', hpf', hnodup, hext]

/-- Claim C9: when registration fails at commit after the photo has been
stored, the record-store transaction is rolled back (no member row is
persisted) while the stored photo blob remains, orphaned. -/
theorem register_rollback_on_commit_failure (st : DBState) (req : RegisterRequest)
    (today : SDate) (uuidHex : List Char) (n : String) (photo : PhotoFile)
    (hn : req.nrc = some n) (hne : n ≠ "")
    (hp : req.id_photo = some photo) (hpf : photo.filename ≠ "")
    (hnodup : st.members.find? (fun m => m.nrc == n) = none)
    (hext : allowed_file photo.filename = true) :
    (register_member st req today uuidHex false).1 = .error .storeError
  ∧ (register_member st req today uuidHex false).2.members = st.members
  ∧ (register_member st req today uuidHex false).2.blobs =
      st.blobs ++ [secure_filename (allocate_member_id today.year uuidHex ++ "_photo.jpg")] := by
  rw [register_success_shape st req today uuidHex false n photo hn hne hp hpf hnodup hext]
  simp

/-- Claim C10: register accepts requests missing the profile fields and the
end date; the created record carries name N/A, province Unknown, town N/A,
zone N/A and membership end 2028-12-31. -/
theorem register_missing_field_defaults (st : DBState) (today : SDate)
    (uuidHex : List Char) (n : String) (photo : PhotoFile)
    (hne : n ≠ "") (hpf : photo.filename ≠ "")
    (hnodup : st.members.find? (fun m => m.nrc == n) = none)
    (hext : allowed_file photo.filename = true) :
    ∃ m : CampaignMember,
      register_member st ⟨some n, none, none, none, none, none, some photo⟩ today uuidHex true =
        (.ok m.user_id, ⟨st.members ++ [m], st.blobs ++ [m.photo_filename]⟩)
      ∧ m.name = "N/A" ∧ m.province = "Unknown" ∧ m.town = "N/A" ∧ m.zone = "N/A"
      ∧ m.membership_end = ⟨2028, 12, 31⟩ ∧ m.nrc = n ∧ m.status = .Active := by
  refine ⟨registeredMember ⟨some n, none, none, none, none, none, some photo⟩ today uuidHex n,
    ?_, rfl, rfl, rfl, rfl, rfl, rfl, rfl⟩
  rw [register_success_shape st _ today uuidHex true n photo rfl hne rfl hpf hnodup hext]
  simp [registeredMember]



lemma statusKey_inj (a b : Status) (h : statusKey a = statusKey b) : a = b := by
  cases a <;> cases b <;> first | rfl | (exfalso; simp [statusKey] at h)

lemma statusKey_ne_total (s : Status) : statusKey s ≠ "Total" := by
  cases s <;> decide

lemma sfWordsAux_no_sep (cs : List Char) (h : ∀ c ∈ cs, sfSep c = false) :
    ∀ cur : List Char, sfWordsAux cs cur =
      if cur.reverse ++ cs = [] then [] else [cur.reverse ++ cs] := by
  induction cs with
  | nil =>
    intro cur
    by_cases hc : cur = [] <;> simp [sfWordsAux, hc]
  | cons c rest ih =>
    intro cur
    have hc : sfSep c = false := h c (by simp)
    have hrest : ∀ x ∈ rest, sfSep x = false := fun x hx => h x (by simp [hx])
    rw [sfWordsAux, hc]
    simp only [Bool.false_eq_true, if_false]
    rw [ih hrest (c :: cur)]
    simp [List.reverse_cons, List.append_assoc]

lemma intercalate_single (x : List Char) : List.intercalate ['_'] [x] = x := by
  simp [List.intercalate]

lemma secure_filename_clean (s : String)
    (hkeep : ∀ c ∈ s.data, sfKeep c = true)
    (hsep : ∀ c ∈ s.data, sfSep c = false)
    (hhead : ∃ c rest, s.data = c :: rest ∧ sfStripChar c = false)
    (hlast : ∃ c front, s.data = front ++ [c] ∧ sfStripChar c = false) :
    secure_filename s = s := by
  obtain ⟨c0, rest0, hcr, hc0⟩ := hhead
  obtain ⟨c1, front1, hfr, hc1⟩ := hlast
  have hne : s.data ≠ [] := by rw [hcr]; simp
  have hwords : sfWordsAux s.data [] = [s.data] := by
    rw [sfWordsAux_no_sep s.data hsep []]
    simp [hne]
  have h1 : s.data.dropWhile sfStripChar = s.data := by
    rw [hcr, List.dropWhile_cons, hc0]
    simp
  have h2 : s.data.reverse.dropWhile sfStripChar = s.data.reverse := by
    rw [hfr]
    simp [List.reverse_append, List.dropWhile_cons, hc1]
  unfold secure_filename
  rw [hwords, intercalate_single, List.filter_eq_self.mpr hkeep]
  show String.mk (((s.data.dropWhile sfStripChar).reverse.dropWhile sfStripChar).reverse) = s
  rw [h1, h2, List.reverse_reverse]

lemma decDigitsAux_chars (P : Char → Prop) (hP : ∀ m < 10, P (decDigitChar m)) :
    ∀ fuel n c, c ∈ decDigitsAux fuel n → P c := by
  intro fuel
  induction fuel with
  | zero => intro n c hc; simp [decDigitsAux] at hc
  | succ f ih =>
    intro n c hc
    rw [decDigitsAux] at hc
    by_cases hn : n < 10
    · rw [if_pos hn] at hc
      simp at hc
      subst hc
      exact hP n hn
    · rw [if_neg hn] at hc
      rcases List.mem_append.mp hc with hc | hc
      · exact ih _ _ hc
      · simp at hc
        subst hc
        exact hP _ (Nat.mod_lt _ (by omega))

lemma hexUpper_chars : ∀ c ∈ hexDigitChars,
    sfKeep c.toUpper = true ∧ sfSep c.toUpper = false ∧
    ((c.toUpper).isUpper || (c.toUpper).isDigit) = true := by decide

lemma decDigit_clean : ∀ m < 10,
    sfKeep (decDigitChar m) = true ∧ sfSep (decDigitChar m) = false ∧
    (decDigitChar m).isDigit = true := by decide



lemma member_id_data (year : Nat) (uuidHex : List Char) :
    (allocate_member_id year uuidHex ++ "_photo.jpg").data =
      'P' :: 'C' :: 'T' :: '-' ::
        (decDigitsAux (year + 1) year ++
          '-' :: (((uuidHex.take 6).map Char.toUpper) ++
            ['_', 'p', 'h', 'o', 't', 'o', '.', 'j', 'p', 'g'])) := by
  have e1 : "PCT-".data = ['P', 'C', 'T', '-'] := rfl
  have e2 : "_photo.jpg".data = ['_', 'p', 'h', 'o', 't', 'o', '.', 'j', 'p', 'g'] := rfl
  have e3 : "-".data = ['-'] := rfl
  have e4 : ∀ l : List Char, (String.mk l).data = l := fun _ => rfl
  simp [allocate_member_id, natToString, String.data_append, e1, e2, e3, e4]

lemma member_id_filename_clean (year : Nat) (uuidHex : List Char)
    (hhex : ∀ c ∈ uuidHex, c ∈ hexDigitChars) :
    secure_filename (allocate_member_id year uuidHex ++ "_photo.jpg") =
      allocate_member_id year uuidHex ++ "_photo.jpg" := by
  have hdig := decDigitsAux_chars
    (fun c => sfKeep c = true ∧ sfSep c = false ∧ c.isDigit = true) decDigit_clean
    (year + 1) year
  have hmem : ∀ c ∈ (allocate_member_id year uuidHex ++ "_photo.jpg").data,
      sfKeep c = true ∧ sfSep c = false := by
    intro c hc
    rw [member_id_data] at hc
    simp only [List.mem_cons, List.mem_append, List.mem_map] at hc
    rcases hc with rfl | rfl | rfl | rfl | hc
    · exact ⟨by decide, by decide⟩
    · exact ⟨by decide, by decide⟩
    · exact ⟨by decide, by decide⟩
    · exact ⟨by decide, by decide⟩
    rcases hc with hc | rfl | hc
    · exact ⟨(hdig c hc).1, (hdig c hc).2.1⟩
    · exact ⟨by decide, by decide⟩
    rcases hc with ⟨a, ha, rfl⟩ | hc
    · have := hexUpper_chars a (hhex a (List.take_subset 6 uuidHex ha))
      exact ⟨this.1, this.2.1⟩
    · rcases hc with rfl | rfl | rfl | rfl | rfl | rfl | rfl | rfl | rfl | rfl | hc <;>
        first
        | exact ⟨by decide, by decide⟩
        | simp at hc
  apply secure_filename_clean
  · exact fun c hc => (hmem c hc).1
  · exact fun c hc => (hmem c hc).2
  · exact ⟨'P', _, member_id_data year uuidHex, by decide⟩
  · refine ⟨'g', 'P' :: 'C' :: 'T' :: '-' ::
      (decDigitsAux (year + 1) year ++
        '-' :: (((uuidHex.take 6).map Char.toUpper) ++
          ['_', 'p', 'h', 'o', 't', 'o', '.', 'j', 'p'])), ?_, by decide⟩
    rw [member_id_data]
    simp



/-- Claim C6 (amended): every successful registration stores the photo under
the sanitized filename derived deterministically from the allocated
member_id with the fixed extension jpg — `<member_id>_photo.jpg` regardless
of the uploaded extension — and the member record's photo reference equals
that filename. -/
theorem register_photo_filename_fixed_jpg (st : DBState) (req : RegisterRequest)
    (today : SDate) (uuidHex : List Char) (n : String) (photo : PhotoFile)
    (hn : req.nrc = some n) (hne : n ≠ "")
    (hp : req.id_photo = some photo) (hpf : photo.filename ≠ "")
    (hnodup : st.members.find? (fun m => m.nrc == n) = none)
    (hext : allowed_file photo.filename = true)
    (hhex : ∀ c ∈ uuidHex, c ∈ hexDigitChars) :
    ∃ m : CampaignMember,
      register_member st req today uuidHex true =
        (.ok m.user_id, ⟨st.members ++ [m], st.blobs ++ [m.photo_filename]⟩)
      ∧ m.user_id = allocate_member_id today.year uuidHex
      ∧ m.photo_filename = m.user_id ++ "_photo.jpg" := by
  refine ⟨registeredMember req today uuidHex n, ?_, rfl, ?_⟩
  · rw [register_success_shape st req today uuidHex true n photo hn hne hp hpf hnodup hext]
    simp [registeredMember]
  · show secure_filename (allocate_member_id today.year uuidHex ++ "_photo.jpg") =
      allocate_member_id today.year uuidHex ++ "_photo.jpg"
    exact member_id_filename_clean today.year uuidHex hhex

lemma decDigitsAux_len1 (fuel n : Nat) (h : n < 10) (hf : 0 < fuel) :
    (decDigitsAux fuel n).length = 1 := by
  cases fuel with
  | zero => omega
  | succ f => simp [decDigitsAux, h]

lemma decDigitsAux_len2 (fuel n : Nat) (h1 : 10 ≤ n) (h2 : n < 100) (hf : n < fuel) :
    (decDigitsAux fuel n).length = 2 := by
  cases fuel with
  | zero => omega
  | succ f =>
    rw [decDigitsAux, if_neg (by omega)]
    simp [decDigitsAux_len1 f (n / 10) (by omega) (by omega)]

lemma decDigitsAux_len3 (fuel n : Nat) (h1 : 100 ≤ n) (h2 : n < 1000) (hf : n < fuel) :
    (decDigitsAux fuel n).length = 3 := by
  cases fuel with
  | zero => omega
  | succ f =>
    rw [decDigitsAux, if_neg (by omega)]
    simp [decDigitsAux_len2 f (n / 10) (by omega) (by omega) (by omega)]

lemma decDigitsAux_len4 (fuel n : Nat) (h1 : 1000 ≤ n) (h2 : n < 10000) (hf : n < fuel) :
    (decDigitsAux fuel n).length = 4 := by
  cases fuel with
  | zero => omega
  | succ f =>
    rw [decDigitsAux, if_neg (by omega)]
    simp [decDigitsAux_len3 f (n / 10) (by omega) (by omega) (by omega)]

lemma natToString_len4 (y : Nat) (h1 : 1000 ≤ y) (h2 : y < 10000) :
    (natToString y).length = 4 := by
  show (decDigitsAux (y + 1) y).length = 4
  exact decDigitsAux_len4 (y + 1) y h1 h2 (by omega)

/-- Claim C7 (amended): every allocated member_id has the form
PCT-<4-digit current year>-<6 uppercase alphanumeric characters>; the id
depends on the uuid draw only through its first six hex characters, so
distinct draws sharing that prefix collide — uniqueness across allocations
is not guaranteed (no collision retry in the code). -/
theorem member_id_format (year : Nat) (uuidHex : List Char)
    (hy1 : 1000 ≤ year) (hy2 : year < 10000)
    (hlen : 6 ≤ uuidHex.length) (hhex : ∀ c ∈ uuidHex, c ∈ hexDigitChars) :
    ∃ ys sfx : String,
      allocate_member_id year uuidHex = "PCT-" ++ ys ++ "-" ++ sfx
      ∧ ys = natToString year ∧ ys.length = 4 ∧ (∀ c ∈ ys.data, c.isDigit = true)
      ∧ sfx.length = 6 ∧ (∀ c ∈ sfx.data, (c.isUpper || c.isDigit) = true)
      ∧ (∀ hex2 : List Char, uuidHex.take 6 = hex2.take 6 →
          allocate_member_id year uuidHex = allocate_member_id year hex2) := by
  refine ⟨natToString year, String.mk ((uuidHex.take 6).map Char.toUpper),
    rfl, rfl, natToString_len4 year hy1 hy2, ?_, ?_, ?_, ?_⟩
  · intro c hc
    exact (decDigitsAux_chars (fun c => c.isDigit = true)
      (fun m hm => (decDigit_clean m hm).2.2) (year + 1) year c hc)
  · show ((uuidHex.take 6).map Char.toUpper).length = 6
    rw [List.length_map, List.length_take]
    omega
  · intro c hc
    simp only [List.mem_map] at hc
    obtain ⟨a, ha, rfl⟩ := hc
    exact (hexUpper_chars a (hhex a (List.take_subset 6 uuidHex ha))).2.2
  · intro hex2 htake
    unfold allocate_member_id
    rw [htake]



lemma region_fold_preserve (p : String) (s : Status) :
    ∀ (rows : List (String × Status × Nat)) (acc : RegionDict) (d : StatusDict),
      (∀ r ∈ rows, r.1 = p → r.2.1 ≠ s) → acc p = some d →
      ∃ d', region_fold rows acc p = some d' ∧ d' (statusKey s) = d (statusKey s) := by
  intro rows
  induction rows with
  | nil => intro acc d _ hacc; exact ⟨d, hacc, rfl⟩
  | cons r rest ih =>
    intro acc d hnot hacc
    obtain ⟨q, t, c⟩ := r
    rw [region_fold]
    by_cases hq : q = p
    · subst hq
      have ht : t ≠ s := hnot (q, t, c) (by simp) rfl
      have hks : statusKey s ≠ statusKey t := fun h => ht (statusKey_inj t s h.symm)
      have hkt : statusKey s ≠ "Total" := statusKey_ne_total s
      have hacc1 : stepRow acc q t c q = some (fun k =>
          if k = statusKey t then some c
          else if k = "Total" then some (((d "Total").getD 0) + c)
          else d k) := by
        simp [stepRow, hacc]
      obtain ⟨d', h1, h2⟩ := ih (stepRow acc q t c) _
        (fun r hr => hnot r (by simp [hr])) hacc1
      refine ⟨d', h1, ?_⟩
      rw [h2]
      simp [hks, hkt]
    · have hacc1 : stepRow acc q t c p = some d := by
        have hpq : p ≠ q := Ne.symm hq
        simp [stepRow, hpq, hacc]
      obtain ⟨d', h1, h2⟩ := ih (stepRow acc q t c) d
        (fun r hr => hnot r (by simp [hr])) hacc1
      exact ⟨d', h1, h2⟩

lemma region_fold_mem (p : String) (s : Status) (c : Nat) :
    ∀ (rows : List (String × Status × Nat)) (acc : RegionDict),
      (p, s, c) ∈ rows → (rows.map (fun r => (r.1, r.2.1))).Nodup →
      ∃ d', region_fold rows acc p = some d' ∧ d' (statusKey s) = some c := by
  intro rows
  induction rows with
  | nil => intro acc h _; simp at h
  | cons r rest ih =>
    intro acc hmem hnodup
    rw [List.map_cons, List.nodup_cons] at hnodup
    rcases List.mem_cons.mp hmem with heq | hmem'
    · subst heq
      rw [region_fold]
      have hacc1 : stepRow acc p s c p = some (fun k =>
          if k = statusKey s then some c
          else if k = "Total" then some ((((acc p).getD freshDict) "Total").getD 0 + c)
          else ((acc p).getD freshDict) k) := by
        simp [stepRow]
      have hnot : ∀ r ∈ rest, r.1 = p → r.2.1 ≠ s := by
        intro r hr h1 h2
        exact hnodup.1 (by
          rw [List.mem_map]
          exact ⟨r, hr, by simp [h1, h2]⟩)
      obtain ⟨d', h1, h2⟩ := region_fold_preserve p s rest (stepRow acc p s c) _ hnot hacc1
      refine ⟨d', h1, ?_⟩
      rw [h2]
      simp
    · rw [region_fold]
      exact ih (stepRow acc r.1 r.2.1 r.2.2) hmem' hnodup.2

lemma region_fold_total_some (p : String) :
    ∀ (rows : List (String × Status × Nat)) (acc : RegionDict) (d : StatusDict) (t : Nat),
      acc p = some d → d "Total" = some t →
      ∃ d', region_fold rows acc p = some d' ∧ d' "Total" = some (t + sumAt rows p) := by
  intro rows
  induction rows with
  | nil =>
    intro acc d t hacc ht
    exact ⟨d, hacc, by simp [sumAt, ht]⟩
  | cons r rest ih =>
    intro acc d t hacc ht
    obtain ⟨q, s, c⟩ := r
    rw [region_fold]
    by_cases hq : q = p
    · subst hq
      have hacc1 : stepRow acc q s c q = some (fun k =>
          if k = statusKey s then some c
          else if k = "Total" then some (((d "Total").getD 0) + c)
          else d k) := by
        simp [stepRow, hacc]
      have ht1 : (fun k =>
          if k = statusKey s then some c
          else if k = "Total" then some (((d "Total").getD 0) + c)
          else d k) "Total" = some (t + c) := by
        simp [(statusKey_ne_total s).symm, ht]
      obtain ⟨d', h1, h2⟩ := ih (stepRow acc q s c) _ (t + c) hacc1 ht1
      refine ⟨d', h1, ?_⟩
      rw [h2]
      have : sumAt ((q, s, c) :: rest) q = c + sumAt rest q := by
        simp [sumAt]
      rw [this]
      congr 1
      omega
    · have hacc1 : stepRow acc q s c p = some d := by
        have hpq : p ≠ q := Ne.symm hq
        simp [stepRow, hpq, hacc]
      obtain ⟨d', h1, h2⟩ := ih (stepRow acc q s c) d t hacc1 ht
      refine ⟨d', h1, ?_⟩
      rw [h2]
      have : sumAt ((q, s, c) :: rest) p = sumAt rest p := by
        simp [sumAt, hq]
      rw [this]

lemma region_fold_total_none (p : String) :
    ∀ (rows : List (String × Status × Nat)) (acc : RegionDict),
      acc p = none → (∃ r ∈ rows, r.1 = p) →
      ∃ d', region_fold rows acc p = some d' ∧ d' "Total" = some (sumAt rows p) := by
  intro rows
  induction rows with
  | nil => intro acc _ h; simp at h
  | cons r rest ih =>
    intro acc hacc hmem
    obtain ⟨q, s, c⟩ := r
    rw [region_fold]
    by_cases hq : q = p
    · subst hq
      have hacc1 : stepRow acc q s c q = some (fun k =>
          if k = statusKey s then some c
          else if k = "Total" then some ((freshDict "Total").getD 0 + c)
          else freshDict k) := by
        simp [stepRow, hacc]
      have ht1 : (fun k =>
          if k = statusKey s then some c
          else if k = "Total" then some ((freshDict "Total").getD 0 + c)
          else freshDict k) "Total" = some c := by
        simp [(statusKey_ne_total s).symm, freshDict]
      obtain ⟨d', h1, h2⟩ := region_fold_total_some q rest (stepRow acc q s c) _ c hacc1 ht1
      refine ⟨d', h1, ?_⟩
      rw [h2]
      have : sumAt ((q, s, c) :: rest) q = c + sumAt rest q := by
        simp [sumAt]
      rw [this]
    · have hacc1 : stepRow acc q s c p = none := by
        have hpq : p ≠ q := Ne.symm hq
        simp [stepRow, hpq, hacc]
      have hmem' : ∃ r ∈ rest, r.1 = p := by
        rcases hmem with ⟨r, hr, hrp⟩
        rcases List.mem_cons.mp hr with heq | hr'
        · subst heq
          exact absurd hrp hq
        · exact ⟨r, hr', hrp⟩
      obtain ⟨d', h1, h2⟩ := ih (stepRow acc q s c) hacc1 hmem'
      refine ⟨d', h1, ?_⟩
      rw [h2]
      have : sumAt ((q, s, c) :: rest) p = sumAt rest p := by
        simp [sumAt, hq]
      rw [this]



lemma report_data_keys (members : List CampaignMember) :
    (report_data members).map (fun r => (r.1, r.2.1)) = pairsOf members := by
  rw [report_data, List.map_map]
  have : ((fun r : String × Status × Nat => (r.1, r.2.1)) ∘
      (fun q : String × Status => (q.1, q.2, countPS members q.1 q.2))) = id := by
    funext q
    simp
  rw [this, List.map_id]

lemma countPS_pos_iff (members : List CampaignMember) (p : String) (s : Status) :
    0 < countPS members p s ↔ ∃ m ∈ members, m.province = p ∧ m.status = s := by
  rw [countPS, List.length_pos_iff_exists_mem]
  constructor
  · rintro ⟨m, hm⟩
    rw [List.mem_filter] at hm
    refine ⟨m, hm.1, ?_, ?_⟩
    · have := hm.2
      simp at this
      exact this.1
    · have := hm.2
      simp at this
      exact this.2
  · rintro ⟨m, hm, h1, h2⟩
    exact ⟨m, List.mem_filter.mpr ⟨hm, by simp [h1, h2]⟩⟩

lemma mem_pairsOf (members : List CampaignMember) (p : String) (s : Status) :
    (p, s) ∈ pairsOf members ↔ ∃ m ∈ members, m.province = p ∧ m.status = s := by
  rw [pairsOf, List.mem_dedup, List.mem_map]
  constructor
  · rintro ⟨m, hm, heq⟩
    exact ⟨m, hm, congrArg Prod.fst heq, congrArg Prod.snd heq⟩
  · rintro ⟨m, hm, h1, h2⟩
    exact ⟨m, hm, by rw [h1, h2]⟩

lemma mem_report_data (members : List CampaignMember) (p : String) (s : Status)
    (h : 0 < countPS members p s) :
    (p, s, countPS members p s) ∈ report_data members := by
  rw [report_data, List.mem_map]
  exact ⟨(p, s), (mem_pairsOf members p s).mpr ((countPS_pos_iff members p s).mp h), rfl⟩

lemma sum_map_by_count (f : Status → Nat) :
    ∀ ss : List Status, (ss.map f).sum =
      ss.count .Active * f .Active + ss.count .Expired * f .Expired +
        ss.count .Suspended * f .Suspended := by
  intro ss
  induction ss with
  | nil => simp
  | cons s tail ih =>
    cases s <;> simp [List.count_cons, ih] <;> ring

lemma sum_over_status_list (f : Status → Nat) (ss : List Status)
    (hnd : ss.Nodup) (hz : ∀ s : Status, s ∉ ss → f s = 0) :
    (ss.map f).sum = f .Active + f .Expired + f .Suspended := by
  rw [sum_map_by_count]
  have hle := List.nodup_iff_count_le_one.mp hnd
  have key : ∀ s : Status, ss.count s * f s = f s := by
    intro s
    rcases Nat.lt_or_ge (ss.count s) 1 with h | h
    · have h0 : ss.count s = 0 := by omega
      rw [h0, Nat.zero_mul, hz s (List.count_eq_zero.mp h0)]
    · have h1 : ss.count s = 1 := by
        have := hle s
        omega
      rw [h1, Nat.one_mul]
  rw [key .Active, key .Expired, key .Suspended]

lemma sumAt_report_data (members : List CampaignMember) (p : String) :
    sumAt (report_data members) p =
      countPS members p .Active + countPS members p .Expired +
        countPS members p .Suspended := by
  rw [sumAt, report_data, List.filter_map]
  rw [List.map_map]
  have hcomp : ((fun r : String × Status × Nat => r.1 == p) ∘
      (fun q : String × Status => (q.1, q.2, countPS members q.1 q.2))) =
      (fun q : String × Status => q.1 == p) := by
    funext q
    simp
  rw [hcomp]
  set fp := (pairsOf members).filter (fun q => q.1 == p) with hfp
  have hfst : ∀ q ∈ fp, q.1 = p := by
    intro q hq
    rw [hfp, List.mem_filter] at hq
    simpa using hq.2
  have hmap : fp.map ((fun r : String × Status × Nat => r.2.2) ∘
      (fun q : String × Status => (q.1, q.2, countPS members q.1 q.2))) =
      fp.map (fun q => countPS members p q.2) := by
    apply List.map_congr_left
    intro q hq
    simp [hfst q hq]
  rw [hmap]
  have hmap2 : fp.map (fun q => countPS members p q.2) =
      (fp.map (fun q => q.2)).map (fun s => countPS members p s) := by
    rw [List.map_map]
    rfl
  rw [hmap2]
  apply sum_over_status_list
  · apply List.Nodup.map_on
    · intro x hx y hy hxy
      have : x.1 = y.1 := by rw [hfst x hx, hfst y hy]
      exact Prod.ext this hxy
    · exact List.Nodup.filter _ (List.nodup_dedup _)
  · intro s hs
    by_contra hne
    have hpos : 0 < countPS members p s := Nat.pos_of_ne_zero hne
    apply hs
    rw [List.mem_map]
    refine ⟨(p, s), ?_, rfl⟩
    rw [hfp, List.mem_filter]
    exact ⟨(mem_pairsOf members p s).mpr ((countPS_pos_iff members p s).mp hpos), by simp⟩

/-- Claim C8: for every member table, the region report maps each province
with at least one member to a dict in which every status with a nonzero
count appears with exactly that count, and whose Total entry is the sum of
the province's per-status counts. -/
theorem region_report_correct (members : List CampaignMember) (p : String) (s : Status) :
    (0 < countPS members p s →
      ∃ d, region_report members p = some d ∧
        d (statusKey s) = some (countPS members p s))
  ∧ ((∃ m ∈ members, m.province = p) →
      ∃ d, region_report members p = some d ∧
        d "Total" = some (countPS members p .Active + countPS members p .Expired +
          countPS members p .Suspended)) := by
  constructor
  · intro h
    apply region_fold_mem p s (countPS members p s) (report_data members) (fun _ => none)
      (mem_report_data members p s h)
    rw [report_data_keys]
    exact List.nodup_dedup _
  · rintro ⟨m, hm, hmp⟩
    have hrow : ∃ r ∈ report_data members, r.1 = p := by
      have hpos : 0 < countPS members p m.status :=
        (countPS_pos_iff members p m.status).mpr ⟨m, hm, hmp, rfl⟩
      exact ⟨(p, m.status, countPS members p m.status),
        mem_report_data members p m.status hpos, rfl⟩
    obtain ⟨d, h1, h2⟩ := region_fold_total_none p (report_data members)
      (fun _ => none) rfl hrow
    rw [sumAt_report_data] at h2
    exact ⟨d, h1, h2⟩


/-- Claim C1: a registration request whose NRC already belongs to an
existing member is answered with ConflictError (409) and leaves the member
table (indeed, the whole store state) unchanged. -/
theorem register_duplicate_nrc_conflict (st : DBState) (req : RegisterRequest)
    (today : SDate) (uuidHex : List Char) (commitOk : Bool) (n : String)
    (hn : req.nrc = some n) (hne : n ≠ "")
    (hphoto : photoMissing req = false)
    (hdup : ∃ m ∈ st.members, m.nrc = n) :
    register_member st req today uuidHex commitOk = (.error .conflict, st) :=
  register_conflict_of_dup st req today uuidHex commitOk n hn hne hphoto hdup

/-- Concrete instantiation of `register_duplicate_nrc_conflict`. -/
theorem register_duplicate_nrc_conflict_witness :
    demoReqDup.nrc = some "101234/18/1" ∧ "101234/18/1" ≠ "" ∧
    photoMissing demoReqDup = false ∧
    (∃ m ∈ [demoMember], m.nrc = "101234/18/1") ∧
    register_member ⟨[demoMember], ["PCT-2025-AB12CD_photo.jpg"]⟩ demoReqDup
        ⟨2026, 5, 1⟩ demoHex true =
      (.error .conflict, ⟨[demoMember], ["PCT-2025-AB12CD_photo.jpg"]⟩) :=
  ⟨rfl, by decide, by decide, by decide,
    register_duplicate_nrc_conflict _ _ _ _ _ _ rfl (by decide) (by decide)
      (by decide)⟩

/-- Concrete instantiation of `verify_member_correct`. -/
theorem verify_member_correct_witness :
    [demoMember].find? (fun m => m.user_id == "PCT-2025-AB12CD") = some demoMember ∧
    (∃ p, verify_member [demoMember] "PCT-2025-AB12CD" ⟨2026, 5, 1⟩ = .ok p ∧
      (p.result = "AUTHENTICATED" ↔
        (demoMember.status = .Active ∧
          (⟨2026, 5, 1⟩ : SDate).key ≤ demoMember.membership_end.key)) ∧
      (¬ (demoMember.status = .Active ∧
          (⟨2026, 5, 1⟩ : SDate).key ≤ demoMember.membership_end.key) →
        p.result = "EXPIRED/INACTIVE")) :=
  ⟨rfl, (verify_member_correct [demoMember] "PCT-2025-AB12CD" ⟨2026, 5, 1⟩).2
    demoMember rfl⟩

/-- Concrete instantiation of `authorize_role_gate`: the DataEntry role is
accepted by the search gate but rejected by the region-report gate. -/
theorem authorize_role_gate_witness :
    [demoAdmin, demoClerk].find? (fun u => u.username == "clerk") = some demoClerk ∧
    "DataEntry" ∉ regionReportRoles ∧
    authorize [demoAdmin, demoClerk] (some "clerk") regionReportRoles =
      .error (.authorizationError "DataEntry") ∧
    "DataEntry" ∈ searchRoles ∧
    authorize [demoAdmin, demoClerk] (some "clerk") searchRoles = .ok demoClerk ∧
    authorize [demoAdmin, demoClerk] (some "ghost") searchRoles =
      .error .authenticationError :=
  ⟨rfl, by decide,
    ((authorize_role_gate [demoAdmin, demoClerk] "clerk" regionReportRoles).2.1
      demoClerk rfl).2.1 (by decide),
    by decide,
    ((authorize_role_gate [demoAdmin, demoClerk] "clerk" searchRoles).2.1
      demoClerk rfl).2.2 (by decide),
    (authorize_role_gate [demoAdmin, demoClerk] "ghost" searchRoles).1 rfl⟩

/-- Concrete instantiation of `generate_member_card_correct`. -/
theorem generate_member_card_correct_witness :
    [demoSuspended].find? (fun m => m.user_id == "PCT-2025-EF34GH") =
      some demoSuspended ∧
    demoSuspended.status ≠ .Active ∧
    generate_member_card [demoSuspended] "PCT-2025-EF34GH" =
      .error (.statusError demoSuspended.status) :=
  ⟨rfl, by decide,
    (generate_member_card_correct [demoSuspended] "PCT-2025-EF34GH").2.1
      demoSuspended rfl (by decide)⟩

/-- Counterexample to claim C5 as stated: a request whose photo extension is
disallowed AND whose NRC duplicates an existing member is answered with
ConflictError, not ValidationError — the extension check runs after the
duplicate lookup (`pct.py` lines 139-143). -/
theorem register_extension_after_duplicate_cex :
    allowed_file "evil.txt" = false ∧
    (register_member ⟨[demoMember], []⟩ reqBadExtDup ⟨2026, 5, 1⟩ demoHex true).1 =
      Except.error RegisterError.conflict ∧
    RegisterError.conflict ≠ RegisterError.validationFileType :=
  ⟨by decide, rfl, by decide⟩

/-- Concrete instantiation of `register_extension_checked_after_duplicate`. -/
theorem register_extension_checked_after_duplicate_witness :
    allowed_file "evil.txt" = false ∧
    register_member ⟨[demoMember], []⟩ reqBadExtDup ⟨2026, 5, 1⟩ demoHex true =
      (.error .conflict, ⟨[demoMember], []⟩) ∧
    register_member ⟨[], []⟩ reqBadExtDup ⟨2026, 5, 1⟩ demoHex true =
      (.error .validationFileType, ⟨[], []⟩) :=
  ⟨by decide,
    (register_extension_checked_after_duplicate ⟨[demoMember], []⟩ reqBadExtDup
      ⟨2026, 5, 1⟩ demoHex true "101234/18/1" ⟨"evil.txt"⟩ rfl (by decide) rfl
      (by decide) (by decide)).1 (by decide),
    (register_extension_checked_after_duplicate ⟨[], []⟩ reqBadExtDup
      ⟨2026, 5, 1⟩ demoHex true "101234/18/1" ⟨"evil.txt"⟩ rfl (by decide) rfl
      (by decide) (by decide)).2 (by decide)⟩

/-- Counterexample to claim C6 as stated: a registration uploading `me.png`
stores `<member_id>_photo.jpg`, not a filename carrying the caller-supplied
extension png (`pct.py` line 147 hard-codes the jpg suffix). -/
theorem register_photo_extension_cex :
    lastExtAux "me.png".data none = some ['p', 'n', 'g'] ∧
    ((register_member ⟨[], []⟩ demoReqPng ⟨2026, 5, 1⟩ demoHex true).2.members.map
        (fun m => m.photo_filename)) = ["PCT-2026-AAAAAA_photo.jpg"] ∧
    ("PCT-2026-AAAAAA_photo.jpg" : String) ≠ "PCT-2026-AAAAAA_photo.png" :=
  ⟨rfl, rfl, by decide⟩

/-- Concrete instantiation of `register_photo_filename_fixed_jpg`. -/
theorem register_photo_filename_fixed_jpg_witness :
    (∀ c ∈ demoHex, c ∈ hexDigitChars) ∧
    (∃ m : CampaignMember,
      register_member ⟨[], []⟩ demoReqPng ⟨2026, 5, 1⟩ demoHex true =
        (.ok m.user_id, ⟨[] ++ [m], [] ++ [m.photo_filename]⟩)
      ∧ m.user_id = allocate_member_id 2026 demoHex
      ∧ m.photo_filename = m.user_id ++ "_photo.jpg") :=
  ⟨by decide,
    register_photo_filename_fixed_jpg ⟨[], []⟩ demoReqPng ⟨2026, 5, 1⟩ demoHex
      "222222/22/2" ⟨"me.png"⟩ rfl (by decide) rfl (by decide) rfl (by decide)
      (by decide)⟩

/-- Counterexample to claim C7 as stated: two distinct uuid4 draws that share
their first six hex characters yield the same member_id in the same year, so
allocated identifiers are not unique across allocations. -/
theorem member_id_collision_cex :
    demoHex ≠ demoHexB ∧
    demoHex.length = 32 ∧ demoHexB.length = 32 ∧
    (∀ c ∈ demoHex, c ∈ hexDigitChars) ∧ (∀ c ∈ demoHexB, c ∈ hexDigitChars) ∧
    allocate_member_id 2026 demoHex = allocate_member_id 2026 demoHexB :=
  ⟨by decide, by decide, by decide, by decide, by decide, rfl⟩

/-- Concrete instantiation of `member_id_format`. -/
theorem member_id_format_witness :
    ((1000 : Nat) ≤ 2026 ∧ (2026 : Nat) < 10000 ∧ 6 ≤ demoHex.length ∧
      ∀ c ∈ demoHex, c ∈ hexDigitChars) ∧
    (∃ ys sfx : String,
      allocate_member_id 2026 demoHex = "PCT-" ++ ys ++ "-" ++ sfx
      ∧ ys = natToString 2026 ∧ ys.length = 4 ∧ (∀ c ∈ ys.data, c.isDigit = true)
      ∧ sfx.length = 6 ∧ (∀ c ∈ sfx.data, (c.isUpper || c.isDigit) = true)
      ∧ (∀ hex2 : List Char, demoHex.take 6 = hex2.take 6 →
          allocate_member_id 2026 demoHex = allocate_member_id 2026 hex2)) :=
  ⟨⟨by decide, by decide, by decide, by decide⟩,
    member_id_format 2026 demoHex (by decide) (by decide) (by decide) (by decide)⟩

/-- Concrete instantiation of `region_report_correct`. -/
theorem region_report_correct_witness :
    (0 < countPS demoMembers "Lusaka" .Active ∧
      ∃ d, region_report demoMembers "Lusaka" = some d ∧
        d (statusKey .Active) = some (countPS demoMembers "Lusaka" .Active)) ∧
    ((∃ m ∈ demoMembers, m.province = "Lusaka") ∧
      ∃ d, region_report demoMembers "Lusaka" = some d ∧
        d "Total" = some (countPS demoMembers "Lusaka" .Active +
          countPS demoMembers "Lusaka" .Expired +
          countPS demoMembers "Lusaka" .Suspended)) :=
  ⟨⟨by decide, (region_report_correct demoMembers "Lusaka" .Active).1 (by decide)⟩,
   ⟨by decide, (region_report_correct demoMembers "Lusaka" .Active).2 (by decide)⟩⟩

/-- Concrete instantiation of `register_rollback_on_commit_failure`. -/
theorem register_rollback_on_commit_failure_witness :
    (register_member ⟨[], []⟩ demoReqPng ⟨2026, 5, 1⟩ demoHex false).1 =
      .error .storeError
  ∧ (register_member ⟨[], []⟩ demoReqPng ⟨2026, 5, 1⟩ demoHex false).2.members = []
  ∧ (register_member ⟨[], []⟩ demoReqPng ⟨2026, 5, 1⟩ demoHex false).2.blobs =
      [] ++ [secure_filename (allocate_member_id 2026 demoHex ++ "_photo.jpg")] :=
  register_rollback_on_commit_failure ⟨[], []⟩ demoReqPng ⟨2026, 5, 1⟩ demoHex
    "222222/22/2" ⟨"me.png"⟩ rfl (by decide) rfl (by decide) rfl (by decide)

/-- Concrete instantiation of `register_missing_field_defaults`. -/
theorem register_missing_field_defaults_witness :
    ∃ m : CampaignMember,
      register_member ⟨[], []⟩ ⟨some "333333/33/3", none, none, none, none, none,
          some ⟨"amy.jpeg"⟩⟩ ⟨2026, 5, 1⟩ demoHex true =
        (.ok m.user_id, ⟨[] ++ [m], [] ++ [m.photo_filename]⟩)
      ∧ m.name = "N/A" ∧ m.province = "Unknown" ∧ m.town = "N/A" ∧ m.zone = "N/A"
      ∧ m.membership_end = ⟨2028, 12, 31⟩ ∧ m.nrc = "333333/33/3" ∧
        m.status = .Active :=
  register_missing_field_defaults ⟨[], []⟩ ⟨2026, 5, 1⟩ demoHex "333333/33/3"
    ⟨"amy.jpeg"⟩ (by decide) (by decide) rfl (by decide)

end PCT
